import Mathlib

/-!
# hanabi-live: the game-session engine (`game.go`, `commandReady.go`)

A shallow embedding of the functions of `src/game.go` and `src/commandReady.go`
that the verified properties talk about, followed by the theorems.

Conventions of the embedding.

* Go `int` fields are `Int`s that hold a value of the 64-bit range.  The sum
  `stackLen + 1` of `CheckEnd` wraps around as Go's `int` does; `MaxScore++` starts at 0
  and runs at most five times per suit, so it stays in range.
* `time.Time` values are `Int` nanoseconds on the monotonic clock, `time.Duration`
  values are `Int` nanoseconds; `time.Since` saturates to the 64-bit range as the
  Go runtime does.
* A pointer that may be `nil` (`*Session`, the `*Game` of `commandReady`) is an `Option`.
* Calls into code that lives outside the two source files (`commandAction`,
  `commandGameLeave`, `commandGameUnattend`, the `Session` methods, the database) are
  recorded, in call order, as `Event`s; what is needed from their results is a
  parameter of the embedding.
* Calls to the logger (`log.Info`, `log.Error`, `log.Debug`) write to no game, player
  or session field and send nothing to a client; they are not part of the trace.
* A Go run-time panic (index out of range, method read through a `nil` pointer)
  is the `fault` of a `Run`.
-/

namespace Hanabi

/-! ## Data model -/

/-- The connection of one client.  The type is declared outside the two source files;
the fields are the three accessors the source calls: `UserID()`, `Status()` and
`CurrentGame()`. -/
structure Session where
  UserID : Int
  Status : String
  CurrentGame : Int
  deriving DecidableEq

/-- A seated player.  The type is declared outside the two source files; the fields are
the ones the embedded functions read or write. -/
structure Player where
  ID : Int
  Name : String
  Session : Option Session
  Present : Bool
  Time : Int
  Notes : List String
  PerformedFinalTurn : Bool
  deriving DecidableEq

/-- A card of the deck.  The type is declared outside the two source files; the fields
are the ones the source reads. -/
structure Card where
  Suit : Int
  Rank : Int
  Discarded : Bool
  deriving DecidableEq

/-- The `Options` struct of `game.go`.  `TimeBase` is a `float64` that the embedded
functions only carry; it is kept as its 64-bit pattern. -/
structure Options where
  Variant : Int
  Timed : Bool
  TimeBase : Nat
  TimePerTurn : Int
  DeckPlays : Bool
  EmptyClues : Bool
  CharacterAssignments : Bool
  deriving DecidableEq

/-- The `GameChatMessage` struct of `game.go`. -/
structure GameChatMessage where
  UserID : Int
  Username : String
  Msg : String
  DatetimeSent : Int
  deriving DecidableEq

/-- An entry of the `variants` table.  The table is declared outside the two source
files; the source reads only `Name`. -/
structure Variant where
  Name : String
  deriving DecidableEq

/-- The `models.PlayerNote` record built by `commandReady`. -/
structure PlayerNote where
  ID : Int
  Name : String
  Notes : List String
  deriving DecidableEq

/-- The `Game` struct of `game.go`, field for field.  The `Action` record is declared
outside the two source files and is a parameter. -/
structure Game (Action : Type) where
  ID : Int
  Name : String
  Owner : Int
  Password : String
  Options : Options
  Players : List Player
  Spectators : List Session
  DisconSpectators : List (Int × Bool)
  Running : Bool
  SharedReplay : Bool
  DatetimeCreated : Int
  DatetimeLastAction : Int
  DatetimeStarted : Int
  DatetimeFinished : Int
  EndCondition : Int
  Seed : String
  Deck : List Card
  DeckIndex : Int
  Stacks : List Int
  StackDirections : List Int
  Turn : Int
  TurnsInverted : Bool
  ActivePlayer : Int
  Clues : Int
  Score : Int
  MaxScore : Int
  Progress : Int
  Strikes : Int
  Actions : List Action
  Sound : String
  TurnBeginTime : Int
  EndPlayer : Int
  EndTurn : Int
  BlindPlays : Int
  Chat : List GameChatMessage
  deriving DecidableEq

/-- The test `strings.HasPrefix(name, "Up or Down")` of `UpdateMaxScore` and `CheckEnd`.
The literal is ASCII, so the byte comparison of Go and the character comparison agree. -/
def isUpOrDown (name : String) : Bool :=
  "Up or Down".toList.isPrefixOf name.toList

/-! ## `CheckEnd` -/

/-- The inner loop of `CheckEnd` and of `UpdateMaxScore`: scan the deck for a card with
`c.Suit == suit && c.Rank == rank && !c.Discarded`, stopping at the first one. -/
def cardAlive : List Card → Int → Int → Bool
  | [], _, _ => false
  | c :: cs, suit, rank =>
    if c.Suit = suit ∧ c.Rank = rank ∧ c.Discarded = false then true
    else cardAlive cs suit rank

/-- The loop over `g.Players` of `CheckEnd`: `allDoneFinalTurn` starts `true` and is
cleared at the first player with `!p.PerformedFinalTurn`. -/
def allDoneFinalTurn : List Player → Bool
  | [] => true
  | p :: ps => if p.PerformedFinalTurn = false then false else allDoneFinalTurn ps

/-- The smallest value of Go's 64-bit `int`. -/
def MinInt64 : Int := -9223372036854775808

/-- The largest value of Go's 64-bit `int`. -/
def MaxInt64 : Int := 9223372036854775807

/-- The 64-bit two's-complement value of an integer: the result Go's `int` arithmetic
keeps of a sum. -/
def wrapInt64 (x : Int) : Int :=
  (x + 9223372036854775808) % 18446744073709551616 - 9223372036854775808

/-- The loop `for i, stackLen := range g.Stacks` of `CheckEnd`, from index `i` on:
`true` when the scan meets a live card of suit `i` and rank `neededRank`, where
`neededRank := stackLen + 1` in Go's wrapping `int` arithmetic (the source then
executes `return false`). -/
def neededCardLeft (deck : List Card) : Nat → List Int → Bool
  | _, [] => false
  | i, stackLen :: rest =>
    if cardAlive deck (i : Int) (wrapInt64 (stackLen + 1)) then true
    else neededCardLeft deck (i + 1) rest

/-- `Game.CheckEnd`: the returned boolean and the game after the call. -/
def CheckEnd {Action : Type} (variants : Int → Variant) (g : Game Action) :
    Bool × Game Action :=
  if g.Strikes = 3 then
    (true, { g with EndCondition := 2 })
  else if g.ActivePlayer = g.EndPlayer ∧ allDoneFinalTurn g.Players = true then
    (true, { g with EndCondition := 1 })
  else if g.Score = g.MaxScore then
    (true, { g with EndCondition := 1 })
  else if isUpOrDown (variants g.Options.Variant).Name = true then
    (false, g)
  else if neededCardLeft g.Deck 0 g.Stacks = true then
    (false, g)
  else
    (true, { g with EndCondition := 1 })

/-! ## `UpdateMaxScore` -/

/-- The loop `for rank := 1; rank <= 5; rank++` of `UpdateMaxScore` for one suit, over
the ranks still to visit: `MaxScore++` while a live copy exists, `break` otherwise. -/
def walkRanks (deck : List Card) (suit : Int) : List Int → Int → Int
  | [], score => score
  | rank :: rest, score =>
    if cardAlive deck suit rank then walkRanks deck suit rest (score + 1)
    else score

/-- The loop `for suit := range g.Stacks` of `UpdateMaxScore`, from index `suit` on. -/
def walkSuits (deck : List Card) : Nat → List Int → Int → Int
  | _, [], score => score
  | suit, _ :: rest, score =>
    walkSuits deck (suit + 1) rest (walkRanks deck (suit : Int) [1, 2, 3, 4, 5] score)

/-- `Game.UpdateMaxScore`. -/
def UpdateMaxScore {Action : Type} (variants : Int → Variant) (g : Game Action) :
    Game Action :=
  if isUpOrDown (variants g.Options.Variant).Name = true then g
  else { g with MaxScore := walkSuits g.Deck 0 g.Stacks 0 }

/-! ## Calls that leave the two source files -/

/-- The `CommandData` record handed to `commandAction`.  Its Go field is called `Type`,
a reserved word here. -/
structure CommandData where
  ActionType : Int
  deriving DecidableEq

/-- The value argument of `Session.Set`. -/
inductive SetValue where
  | int (n : Int)
  | str (v : String)
  deriving DecidableEq

/-- The payload argument of `Session.Emit`. -/
inductive Payload (Action : Type) where
  | null
  | actions (list : List Action)
  | notes (notes : List String)
  | replayTurn (turn : Int)
  | boot
  deriving DecidableEq

/-- One call that leaves `game.go` and `commandReady.go`, with the receiving session
(a `*Session`, possibly `nil`) and the arguments that identify it. -/
inductive Event (Action : Type) where
  | emit (s : Option Session) (name : String) (data : Payload Action)
  | warning (s : Option Session) (msg : String)
  | error (s : Option Session) (msg : String)
  | set (s : Option Session) (key : String) (value : SetValue)
  | notifyGameAction (s : Option Session) (a : Action) (p : Option Player)
  | notifyAction (s : Option Session)
  | notifyClock (s : Option Session)
  | notifyAllNotes (s : Option Session) (notes : List PlayerNote)
  | notifySpectators (s : Option Session)
  | notifyReplayLeader (s : Option Session)
  | commandAction (s : Option Session) (d : CommandData)
  | commandGameUnattend (s : Option Session)
  | commandGameLeave (s : Option Session)
  | dbGameActionsGetAll (gameID : Int)
  | dbGamesGetNotes (gameID : Int)
  deriving DecidableEq

/-- The trace of one call: the events in call order, and whether the call was aborted
by a Go run-time panic. -/
structure Run (Action : Type) where
  events : List (Event Action)
  fault : Bool
  deriving DecidableEq

/-- Sequential composition: the second part runs only when the first did not panic. -/
def Run.andThen {Action : Type} (r k : Run Action) : Run Action :=
  if r.fault = true then r else ⟨r.events ++ k.events, k.fault⟩

/-- A part of a call that cannot panic. -/
def Run.ok {Action : Type} (events : List (Event Action)) : Run Action :=
  ⟨events, false⟩

/-- A Go run-time panic. -/
def Run.panic {Action : Type} : Run Action :=
  ⟨[], true⟩

/-- Go slice indexing `xs[i]` with its bounds check. -/
def index? {α : Type} (xs : List α) (i : Int) : Option α :=
  if i < 0 then none else xs[i.toNat]?

/-! ## `GetPlayerIndex` -/

/-- The loop `for i, p := range g.Players` of `GetPlayerIndex`, from index `i` on. -/
def playerIndexFrom : List Player → Int → Nat → Int
  | [], _, _ => -1
  | p :: ps, id, i => if p.ID = id then (i : Int) else playerIndexFrom ps id (i + 1)

/-- `Game.GetPlayerIndex`; `none` is the `nil` game of a replay. -/
def GetPlayerIndex {Action : Type} : Option (Game Action) → Int → Int
  | none, _ => -1
  | some g, id => playerIndexFrom g.Players id 0

/-! ## `NotifyAction` and `NotifyBoot` -/

/-- `Game.NotifyAction`. -/
def NotifyAction {Action : Type} (g : Game Action) : Run Action :=
  if g.Running = false then Run.ok []
  else
    match index? g.Actions ((g.Actions.length : Int) - 1) with
    | none => Run.panic
    | some a =>
      Run.ok
        (((g.Players.filter fun p => p.Present).map
            fun p => Event.notifyGameAction p.Session a (some p))
          ++ g.Spectators.map fun s => Event.notifyGameAction (some s) a none)

/-- `Game.NotifyBoot`. -/
def NotifyBoot {Action : Type} (g : Game Action) : List (Event Action) :=
  (if g.SharedReplay = false then
      (g.Players.filter fun p => p.Present).map
        fun p => Event.emit p.Session "notify" Payload.boot
    else [])
  ++ g.Spectators.map fun s => Event.emit (some s) "notify" Payload.boot

/-! ## `CheckTimer` -/

/-- The argument `p *Player` of `CheckTimer`: the pointer held at a seat of `g.Players`,
or a pointer to a player object the game does not hold. -/
inductive PlayerPtr where
  | seat (i : Nat)
  | free (p : Player)
  deriving DecidableEq

/-- The player object behind a pointer. -/
def PlayerPtr.get {Action : Type} (g : Game Action) : PlayerPtr → Option Player
  | PlayerPtr.seat i => g.Players[i]?
  | PlayerPtr.free p => some p

/-- The assignment `p.Time = t` through a pointer. -/
def PlayerPtr.setTime {Action : Type} (g : Game Action) (t : Int) :
    PlayerPtr → Game Action × PlayerPtr
  | PlayerPtr.seat i =>
    match g.Players[i]? with
    | none => (g, PlayerPtr.seat i)
    | some p => ({ g with Players := g.Players.set i { p with Time := t } }, PlayerPtr.seat i)
  | PlayerPtr.free p => (g, PlayerPtr.free { p with Time := t })

/-- The store after a timer wake and the calls made. -/
structure TimerWake (Action : Type) where
  g : Game Action
  p : PlayerPtr
  events : List (Event Action)
  deriving DecidableEq

/-- `Game.CheckTimer` from the moment it holds `commandMutex` again after
`time.Sleep(p.Time)`; `none` when `p` points at no player. -/
def CheckTimer {Action : Type} (turn : Int) (g : Game Action) (p : PlayerPtr) :
    Option (TimerWake Action) :=
  match p.get g with
  | none => none
  | some player =>
    if g.EndCondition > 0 then some ⟨g, p, []⟩
    else if turn ≠ g.Turn then some ⟨g, p, []⟩
    else
      some
        { g := (p.setTime g 0).1
          p := (p.setTime g 0).2
          events :=
            [Event.set player.Session "currentGame" (SetValue.int g.ID),
             Event.commandAction player.Session ⟨4⟩] }

/-! ## `CheckIdle` -/

/-- The smallest `time.Duration`. -/
def minDuration : Int := -9223372036854775808

/-- The largest `time.Duration`. -/
def maxDuration : Int := 9223372036854775807

/-- `time.Second`, in nanoseconds. -/
def Second : Int := 1000000000

/-- `time.Since(t)` read at the instant `now`: the difference, saturated to the range of
`time.Duration`. -/
def Since (now t : Int) : Int :=
  max minDuration (min maxDuration (now - t))

/-- The first critical section of `CheckIdle`: `g.DatetimeLastAction = time.Now()`. -/
def CheckIdleArm {Action : Type} (now : Int) (g : Game Action) : Game Action :=
  { g with DatetimeLastAction := now }

/-- Modelled from the spec: `commandGameUnattend` is outside the two source files; §4.3
says that each evicted spectator is "removed from the table", so one iteration of
`for len(g.Spectators) > 0` takes the head of `g.Spectators` away.  The events of the
loop, for the spectators still at the table. -/
def bootSpectators {Action : Type} (gameID : Int) : List Session → List (Event Action)
  | [] => []
  | s :: rest =>
    [Event.set (some s) "currentGame" (SetValue.int gameID),
     Event.set (some s) "status" (SetValue.str "Spectating"),
     Event.commandGameUnattend (some s)]
    ++ bootSpectators gameID rest

/-- The loop of `CheckIdle` that looks for the owner: `none` when a seated player has a
`nil` session (the read `p.Session.UserID()` panics), otherwise the value of `s` after
the loop, `nil` when no seated player is the owner. -/
def ownerSession (owner : Int) : List Player → Option (Option Session)
  | [] => some none
  | p :: ps =>
    match p.Session with
    | none => none
    | some s => if s.UserID = owner then some (some s) else ownerSession owner ps

/-- The store after an idle wake and the calls made. -/
structure IdleWake (Action : Type) where
  g : Game Action
  run : Run Action
  deriving DecidableEq

/-- `Game.CheckIdle` from the moment it holds `commandMutex` again after
`time.Sleep(idleGameTimeout + time.Second)`, at the instant `now`.  The registry
`games`, and the constants `idleGameTimeout` and `actionTypeIdleLimitReached` declared
outside the two source files, are parameters. -/
def CheckIdle {Action : Type} (games : Int → Option (Game Action))
    (idleGameTimeout actionTypeIdleLimitReached now : Int) (g : Game Action) :
    IdleWake Action :=
  match games g.ID with
  | none => ⟨g, Run.ok []⟩
  | some _ =>
    if Since now g.DatetimeLastAction < idleGameTimeout then ⟨g, Run.ok []⟩
    else
      let boot : List (Event Action) := if g.SharedReplay = true then NotifyBoot g else []
      let evict : List (Event Action) := boot ++ bootSpectators g.ID g.Spectators
      let g1 : Game Action := { g with Spectators := [] }
      if g.SharedReplay = true then ⟨g1, Run.ok evict⟩
      else
        match ownerSession g.Owner g.Players with
        | none => ⟨g1, (Run.ok evict).andThen Run.panic⟩
        | some s =>
          if g.Running = true then
            ⟨g1, Run.ok (evict ++
              [Event.set s "currentGame" (SetValue.int g.ID),
               Event.set s "status" (SetValue.str "Playing"),
               Event.commandAction s ⟨actionTypeIdleLimitReached⟩])⟩
          else
            ⟨g1, Run.ok (evict ++
              [Event.set s "currentGame" (SetValue.int g.ID),
               Event.set s "status" (SetValue.str "Pre-Game"),
               Event.commandGameLeave s])⟩

/-- An eviction call of `CheckIdle`: a boot message, the removal of a spectator, the
forced game end or the forced owner leave. -/
def Event.isEviction {Action : Type} : Event Action → Bool
  | Event.emit _ _ Payload.boot => true
  | Event.commandGameUnattend _ => true
  | Event.commandAction _ _ => true
  | Event.commandGameLeave _ => true
  | _ => false

/-! ## `commandReady` -/

/-- What `commandReady` uses from outside the two source files: the registry `games`,
the two database reads, `json.Unmarshal` into an `Action`, and `Action.Scrub`, which
rewrites the loop copy `a` of an action for the game `g` and the viewer `p`. -/
structure Env (Action : Type) where
  games : Int → Option (Game Action)
  dbGameActionsGetAll : Int → Except String (List String)
  jsonUnmarshal : String → Except String Action
  dbGamesGetNotes : Int → Except String (List PlayerNote)
  Scrub : Game Action → Player → Action → Action

/-- The text sent with `s.Error` when a read of the persisted game fails. -/
def failedToInitialize : String :=
  "Failed to initialize the game. Please contact an administrator."

/-- The status test `s.Status() == "Replay" || s.Status() == "Shared Replay"`. -/
def isReplayStatus (status : String) : Bool :=
  status = "Replay" || status = "Shared Replay"

/-- The "Validate" block of `commandReady`: the warning that ends the call, or the game
pointer `g` (`nil` for the status "Replay"). -/
def validateReady {Action : Type} (env : Env Action) (s : Session) :
    Except (Event Action) (Option (Game Action)) :=
  if s.Status ≠ "Replay" then
    match env.games s.CurrentGame with
    | none =>
      Except.error
        (Event.warning (some s) ("Game " ++ toString s.CurrentGame ++ " does not exist."))
    | some g =>
      if g.Running = false then
        Except.error
          (Event.warning (some s)
            ("Game " ++ toString s.CurrentGame ++ " has not started yet."))
      else Except.ok (some g)
  else Except.ok none

/-- The loop `for _, actionString := range actionStrings` of `commandReady`: the decoded
actions in order, or the first decoding error. -/
def decodeActions {Action : Type} (jsonUnmarshal : String → Except String Action) :
    List String → Except String (List Action)
  | [] => Except.ok []
  | actionString :: rest =>
    match jsonUnmarshal actionString with
    | Except.error err => Except.error err
    | Except.ok action =>
      match decodeActions jsonUnmarshal rest with
      | Except.error err => Except.error err
      | Except.ok actions => Except.ok (action :: actions)

/-- The notes of a live game: one `models.PlayerNote` per seated player. -/
def liveNotes (players : List Player) : List PlayerNote :=
  players.map fun p => { ID := p.ID, Name := p.Name, Notes := p.Notes }

/-- The "Scrub actions" block of `commandReady`: `none` is a panic (a `nil` game or a
seat out of range), otherwise the list `scrubbedActions`. -/
def scrubActions {Action : Type} (env : Env Action) (g : Option (Game Action)) (i : Int)
    (actions : List Action) : Option (List Action) :=
  if i > -1 then
    match g with
    | none => none
    | some game =>
      match index? game.Players i with
      | none => none
      | some p => some (actions.map (env.Scrub game p))
  else some actions

/-- The part of `commandReady` after `scrubbedActions` is built, from
`s.Emit("notifyList", &scrubbedActions)` to the end. -/
def sendReady {Action : Type} (s : Session) (g : Option (Game Action)) (i : Int)
    (notes : List PlayerNote) (scrubbedActions : List Action) : Run Action :=
  (Run.ok [Event.emit (some s) "notifyList" (Payload.actions scrubbedActions)]).andThen
  ((if s.Status ≠ "Replay" ∧ s.Status ≠ "Shared Replay" then
      match g with
      | none => Run.panic
      | some game =>
        if game.ActivePlayer = i then Run.ok [Event.notifyAction (some s)] else Run.ok []
    else Run.ok []).andThen
  ((Run.ok [Event.emit (some s) "advanced" Payload.null]).andThen
  ((if isReplayStatus s.Status = true then Run.ok [Event.notifyAllNotes (some s) notes]
    else
      (Run.ok [Event.notifyClock (some s)]).andThen
        (if i = -1 then Run.ok [Event.notifyAllNotes (some s) notes]
         else
          match index? notes i with
          | none => Run.panic
          | some note => Run.ok [Event.emit (some s) "notes" (Payload.notes note.Notes)])).andThen
  ((if s.Status ≠ "Replay" then Run.ok [Event.notifySpectators (some s)]
    else Run.ok []).andThen
  (if s.Status = "Shared Replay" then
    match g with
    | none => Run.panic
    | some game =>
      Run.ok [Event.notifyReplayLeader (some s),
              Event.emit (some s) "replayTurn" (Payload.replayTurn game.Turn)]
   else Run.ok [])))))

/-- The "Ready" block of `commandReady` once `actions` and `notes` are known. -/
def finishReady {Action : Type} (env : Env Action) (s : Session)
    (g : Option (Game Action)) (i : Int) (actions : List Action)
    (notes : List PlayerNote) : Run Action :=
  match scrubActions env g i actions with
  | none => Run.panic
  | some scrubbedActions => sendReady s g i notes scrubbedActions

/-- The calls made by `commandReady(s, d)`, in order; `d` is not read. -/
def readyRun {Action : Type} (env : Env Action) (s : Session) : Run Action :=
  match validateReady env s with
  | Except.error warning => Run.ok [warning]
  | Except.ok g =>
    let gameID := s.CurrentGame
    let i := GetPlayerIndex g s.UserID
    if isReplayStatus s.Status = true then
      match env.dbGameActionsGetAll gameID with
      | Except.error _ =>
        Run.ok [Event.dbGameActionsGetAll gameID, Event.error (some s) failedToInitialize]
      | Except.ok actionStrings =>
        match decodeActions env.jsonUnmarshal actionStrings with
        | Except.error _ =>
          Run.ok [Event.dbGameActionsGetAll gameID, Event.error (some s) failedToInitialize]
        | Except.ok actions =>
          match env.dbGamesGetNotes gameID with
          | Except.error _ =>
            Run.ok [Event.dbGameActionsGetAll gameID, Event.dbGamesGetNotes gameID,
                    Event.error (some s) failedToInitialize]
          | Except.ok notes =>
            (Run.ok [Event.dbGameActionsGetAll gameID, Event.dbGamesGetNotes gameID]).andThen
              (finishReady env s g i actions notes)
    else
      match g with
      | none => Run.panic
      | some game => finishReady env s g i game.Actions (liveNotes game.Players)

/-- The outcome of a command handler: the calls it made and the registry of games after
the call. -/
structure Handled (Action : Type) where
  run : Run Action
  games : Int → Option (Game Action)

/-- The handler `commandReady(s, d)`.  No statement of its body assigns to the registry
or to a field of a game or of a player, and `Scrub` works on the loop copy of an action:
the registry after the call is the registry before. -/
def commandReady {Action : Type} (env : Env Action) (s : Session) : Handled Action :=
  { run := readyRun env s, games := env.games }

/-- The payloads of the "notifyList" messages of a trace, in order. -/
def notifyLists {Action : Type} : List (Event Action) → List (List Action)
  | [] => []
  | e :: rest =>
    match e with
    | Event.emit _ name (Payload.actions list) =>
      if name = "notifyList" then list :: notifyLists rest else notifyLists rest
    | _ => notifyLists rest

/-! ## The properties in the words of the specification -/

/-- A non-discarded copy of the card of suit `s` and rank `r` is in the deck. -/
def survives (deck : List Card) (s r : Int) : Prop :=
  ∃ c ∈ deck, c.Suit = s ∧ c.Rank = r ∧ c.Discarded = false

instance (deck : List Card) (s r : Int) : Decidable (survives deck s r) := by
  unfold survives; infer_instance

/-- Every rank `r` in `1..k` of suit `s` has a surviving copy. -/
def reachesRank (deck : List Card) (s : Int) (k : Nat) : Prop :=
  ∀ r ∈ Finset.Icc 1 k, survives deck s (r : Int)

instance (deck : List Card) (s : Int) : DecidablePred (reachesRank deck s) := by
  intro k; unfold reachesRank; infer_instance

/-- The largest `k` in `0..5` such that every rank in `1..k` of suit `s` survives. -/
def suitContribution (deck : List Card) (s : Int) : Nat :=
  Nat.findGreatest (reachesRank deck s) 5

/-- The sum of the contributions of the suit indices of `stacks`. -/
def specMaxScore (deck : List Card) (heights : List Int) : Nat :=
  ((List.range heights.length).map fun (s : Nat) => suitContribution deck (s : Int)).sum

/-- Rule 1 of the score evaluator: the strike count is 3. -/
def ruleStrikes {Action : Type} (g : Game Action) : Prop :=
  g.Strikes = 3

instance {Action : Type} (g : Game Action) : Decidable (ruleStrikes g) := by
  unfold ruleStrikes; infer_instance

/-- Rule 2: the active player is the end player and every player has performed the
final turn. -/
def ruleFinalRound {Action : Type} (g : Game Action) : Prop :=
  g.ActivePlayer = g.EndPlayer ∧ ∀ p ∈ g.Players, p.PerformedFinalTurn = true

/-- Rule 3: the score equals the maximum score. -/
def ruleMaxScore {Action : Type} (g : Game Action) : Prop :=
  g.Score = g.MaxScore

/-- Rule 4: the variant is not an "Up or Down" one and no suit index has a non-discarded
deck card whose rank is one above the height of its stack. -/
def ruleNothingPlayable {Action : Type} (variants : Int → Variant) (g : Game Action) :
    Prop :=
  isUpOrDown (variants g.Options.Variant).Name = false ∧
    ∀ s : Fin g.Stacks.length, ¬ survives g.Deck (s.val : Int) (g.Stacks.get s + 1)

/-- The seated player a viewer is: the first player of the game whose ID is the user ID
of the viewer, if there is one. -/
def seatedPlayer {Action : Type} (g : Game Action) (userID : Int) : Option Player :=
  g.Players.find? fun p => p.ID = userID

/-- The log as a viewer of a registered game is to see it: scrubbed entry by entry for a
seated player, as it is for anyone else. -/
def viewOf {Action : Type} (env : Env Action) (g : Game Action) (userID : Int)
    (actions : List Action) : List Action :=
  match seatedPlayer g userID with
  | some p => actions.map (env.Scrub g p)
  | none => actions

/-! ## Concrete states -/

/-- A variants table with a plain variant at every index but 9, which holds an
"Up or Down" variant. -/
def sampleVariants (i : Int) : Variant :=
  if i = 9 then ⟨"Up or Down (5 Suits)"⟩ else ⟨"No Variant"⟩

/-- The session of the first seated player. -/
def aliceSession : Session :=
  { UserID := 1, Status := "Playing", CurrentGame := 7 }

/-- The session of the second seated player. -/
def bobSession : Session :=
  { UserID := 2, Status := "Playing", CurrentGame := 7 }

/-- A session that watches game 7 without a seat. -/
def carolSession : Session :=
  { UserID := 3, Status := "Spectating", CurrentGame := 7 }

/-- The first seated player. -/
def alice : Player :=
  { ID := 1, Name := "alice", Session := some aliceSession, Present := true,
    Time := 300000000000, Notes := ["a0", "a1"], PerformedFinalTurn := false }

/-- The second seated player. -/
def bob : Player :=
  { ID := 2, Name := "bob", Session := some bobSession, Present := true,
    Time := 300000000000, Notes := ["b0", "b1"], PerformedFinalTurn := false }

/-- A two-suit deck of twenty cards.  Suit 0 has ranks 1 and 2 alive and both copies of
rank 3 discarded; suit 1 has its three copies of rank 1 discarded and every higher rank
alive. -/
def sampleDeck : List Card :=
  [⟨0, 1, false⟩, ⟨0, 1, false⟩, ⟨0, 1, false⟩, ⟨0, 2, false⟩, ⟨0, 2, false⟩,
   ⟨0, 3, true⟩, ⟨0, 3, true⟩, ⟨0, 4, false⟩, ⟨0, 4, false⟩, ⟨0, 5, false⟩,
   ⟨1, 1, true⟩, ⟨1, 1, true⟩, ⟨1, 1, true⟩, ⟨1, 2, false⟩, ⟨1, 2, false⟩,
   ⟨1, 3, false⟩, ⟨1, 3, false⟩, ⟨1, 4, false⟩, ⟨1, 4, false⟩, ⟨1, 5, false⟩]

/-- A running two-player game, mid-play, with actions `[10, 11, 12]`. -/
def sampleGame : Game Nat :=
  { ID := 7, Name := "table", Owner := 1, Password := "",
    Options := { Variant := 0, Timed := true, TimeBase := 0, TimePerTurn := 20,
                 DeckPlays := false, EmptyClues := false, CharacterAssignments := false },
    Players := [alice, bob], Spectators := [carolSession], DisconSpectators := [],
    Running := true, SharedReplay := false,
    DatetimeCreated := 0, DatetimeLastAction := 0, DatetimeStarted := 0,
    DatetimeFinished := 0, EndCondition := 0,
    Seed := "seed", Deck := sampleDeck, DeckIndex := 14, Stacks := [1, 0],
    StackDirections := [0, 0], Turn := 5, TurnsInverted := false, ActivePlayer := 1,
    Clues := 8, Score := 1, MaxScore := 10, Progress := 0, Strikes := 0,
    Actions := [10, 11, 12], Sound := "", TurnBeginTime := 0, EndPlayer := -1,
    EndTurn := 0, BlindPlays := 0, Chat := [] }

/-- The sample game one card further, with three strikes, the maximum score reached and
the final round complete, all at once. -/
def struckOutGame : Game Nat :=
  { sampleGame with
    Players := [{ alice with PerformedFinalTurn := true },
                { bob with PerformedFinalTurn := true }],
    Stacks := [2, 0], Score := 2, MaxScore := 2, Strikes := 3, EndPlayer := 1 }

/-- The sample game as an idle monitor finds it: armed at instant 0, refreshed by a
later arming at instant 1 (one nanosecond later). -/
def refreshedGame : Game Nat :=
  CheckIdleArm 1 (CheckIdleArm 0 sampleGame)

/-- A registry that holds the refreshed sample game under its ID. -/
def sampleGames (id : Int) : Option (Game Nat) :=
  if id = 7 then some refreshedGame else none

/-- An idle threshold of thirty minutes, in nanoseconds. -/
def sampleIdleTimeout : Int := 1800000000000

/-- A value for the constant `actionTypeIdleLimitReached`. -/
def sampleIdleLimitReached : Int := 5

/-- A game whose stack 0 has the height `MaxInt64` and whose deck holds one live card, of
suit 0 and rank `MinInt64`. -/
def overflowGame : Game Nat :=
  { sampleGame with
    Stacks := [9223372036854775807, 0],
    Deck := [⟨0, -9223372036854775808, false⟩] }

/-- The sample game, running, with an empty action log. -/
def emptyLogGame : Game Nat :=
  { sampleGame with Actions := [] }

/-- The sample game before its start. -/
def preGame : Game Nat :=
  { sampleGame with ID := 8, Running := false, Actions := [] }

/-- The second player, back in the shared replay of the game. -/
def bobReplaySession : Session :=
  { UserID := 2, Status := "Shared Replay", CurrentGame := 9 }

/-- The third user, in the shared replay of the game, without a seat there. -/
def carolReplaySession : Session :=
  { UserID := 3, Status := "Shared Replay", CurrentGame := 9 }

/-- A shared replay of the finished sample game, registered under the ID 9: it keeps the
two seated players, and its viewers are its spectators. -/
def sharedReplayGame : Game Nat :=
  { sampleGame with
    ID := 9, SharedReplay := true, EndCondition := 1,
    Spectators := [bobReplaySession, carolReplaySession] }

/-- A redaction for the sample actions: the action `10 + id` shows a card of the player
`id`, who gets 0 in its place. -/
def sampleScrub (_g : Game Nat) (p : Player) (a : Nat) : Nat :=
  if (a : Int) = 10 + p.ID then 0 else a

/-- A decoder for the sample actions, which are persisted as decimal numerals. -/
def sampleUnmarshal (text : String) : Except String Nat :=
  if text = "10" then Except.ok 10
  else if text = "11" then Except.ok 11
  else if text = "12" then Except.ok 12
  else Except.error "invalid character"

/-- A sample environment: the live game 7, the unstarted game 8, the shared replay 9,
and a store that holds the log `[10, 11, 12]` and the notes of every game. -/
def sampleEnv : Env Nat :=
  { games := fun id =>
      if id = 7 then some sampleGame
      else if id = 8 then some preGame
      else if id = 9 then some sharedReplayGame
      else none,
    dbGameActionsGetAll := fun _ => Except.ok ["10", "11", "12"],
    jsonUnmarshal := sampleUnmarshal,
    dbGamesGetNotes := fun _ => Except.ok (liveNotes [alice, bob]),
    Scrub := sampleScrub }

/-- A session that joins the unstarted game 8. -/
def earlySession : Session :=
  { UserID := 2, Status := "Playing", CurrentGame := 8 }

/-- A session whose current game is not registered. -/
def straySession : Session :=
  { UserID := 3, Status := "Playing", CurrentGame := 99 }

/-! ## Lemmas on the loops -/

theorem cardAlive_iff (deck : List Card) (suit rank : Int) :
    cardAlive deck suit rank = true ↔ survives deck suit rank := by
  unfold survives
  induction deck with
  | nil => simp [cardAlive]
  | cons c cs ih =>
    by_cases hc : c.Suit = suit ∧ c.Rank = rank ∧ c.Discarded = false
    · simp only [cardAlive, hc, and_self, if_true, List.mem_cons, true_iff]
      exact ⟨c, Or.inl rfl, hc⟩
    · simp only [cardAlive, hc, if_false, ih, List.mem_cons]
      constructor
      · rintro ⟨d, hd, h⟩
        exact ⟨d, Or.inr hd, h⟩
      · rintro ⟨d, hd | hd, h⟩
        · exact absurd (hd ▸ h) hc
        · exact ⟨d, hd, h⟩

theorem allDoneFinalTurn_iff (ps : List Player) :
    allDoneFinalTurn ps = true ↔ ∀ p ∈ ps, p.PerformedFinalTurn = true := by
  induction ps with
  | nil => simp [allDoneFinalTurn]
  | cons p ps ih =>
    cases hp : p.PerformedFinalTurn <;> simp [allDoneFinalTurn, hp, ih]

theorem neededCardLeft_iff (deck : List Card) (heights : List Int) (i : Nat) :
    neededCardLeft deck i heights = true ↔
      ∃ s : Fin heights.length,
        survives deck ((i + s.val : Nat) : Int) (wrapInt64 (heights.get s + 1)) := by
  induction heights generalizing i with
  | nil =>
    simp only [neededCardLeft, Bool.false_eq_true, false_iff]
    rintro ⟨s, _⟩
    exact absurd s.isLt (by simp)
  | cons x rest ih =>
    by_cases hx : cardAlive deck (i : Int) (wrapInt64 (x + 1)) = true
    · rw [neededCardLeft, if_pos hx]
      simp only [true_iff]
      exact ⟨⟨0, by simp⟩, by simpa using (cardAlive_iff _ _ _).1 hx⟩
    · rw [neededCardLeft, if_neg hx, ih]
      constructor
      · rintro ⟨s, hs⟩
        refine ⟨⟨s.val + 1, by simp⟩, ?_⟩
        have : i + (s.val + 1) = i + 1 + s.val := by omega
        simpa [this] using hs
      · rintro ⟨⟨s, hlt⟩, hs⟩
        cases s with
        | zero => exact absurd ((cardAlive_iff _ _ _).2 (by simpa using hs)) hx
        | succ n =>
          refine ⟨⟨n, by simpa using hlt⟩, ?_⟩
          have : i + (n + 1) = i + 1 + n := by omega
          simpa [this] using hs

theorem checkEnd_cases {Action : Type} (variants : Int → Variant) (g : Game Action) :
    (g.Strikes = 3 ∧ CheckEnd variants g = (true, { g with EndCondition := 2 })) ∨
    (g.Strikes ≠ 3 ∧ CheckEnd variants g = (true, { g with EndCondition := 1 })) ∨
    CheckEnd variants g = (false, g) := by
  unfold CheckEnd
  by_cases h1 : g.Strikes = 3
  · exact Or.inl ⟨h1, by rw [if_pos h1]⟩
  · refine Or.inr ?_
    rw [if_neg h1]
    split_ifs <;> simp [h1]

/-! ## `CheckEnd`: theorems -/

/-- C1: in every game state with `Strikes = 3`, `CheckEnd` returns `true` and leaves the
game with `EndCondition = 2` and nothing else changed, whatever the score, the maximum
score, the active player and the final-turn flags are; the recorded code is not 1. -/
theorem checkEnd_strikes_first {Action : Type} (variants : Int → Variant)
    (g : Game Action) (h : g.Strikes = 3) :
    (CheckEnd variants g).1 = true ∧
      (CheckEnd variants g).2 = { g with EndCondition := 2 } ∧
      (CheckEnd variants g).2.EndCondition = 2 ∧
      (CheckEnd variants g).2.EndCondition ≠ 1 := by
  unfold CheckEnd
  rw [if_pos h]
  exact ⟨rfl, rfl, rfl, by simp⟩

/-- Witness of C1: three strikes together with the maximum score and a complete final
round. -/
theorem checkEnd_strikes_first_witness :
    struckOutGame.Strikes = 3 ∧ struckOutGame.Score = struckOutGame.MaxScore ∧
      struckOutGame.ActivePlayer = struckOutGame.EndPlayer ∧
      (∀ p ∈ struckOutGame.Players, p.PerformedFinalTurn = true) ∧
      (CheckEnd sampleVariants struckOutGame).1 = true ∧
      (CheckEnd sampleVariants struckOutGame).2 = { struckOutGame with EndCondition := 2 } ∧
      (CheckEnd sampleVariants struckOutGame).2.EndCondition = 2 ∧
      (CheckEnd sampleVariants struckOutGame).2.EndCondition ≠ 1 :=
  ⟨by decide, by decide, by decide, by decide,
    checkEnd_strikes_first sampleVariants struckOutGame (by decide)⟩

/-- C5, as stated, fails: a game whose `EndCondition` is already 1 and whose strike
count is 3 leaves `CheckEnd` with `EndCondition = 2`. -/
theorem checkEnd_overwrites_endCondition :
    ¬ ∀ (variants : Int → Variant) (g : Game Nat), g.EndCondition ≠ 0 →
        (CheckEnd variants g).2.EndCondition = g.EndCondition := by
  intro h
  have h1 := h sampleVariants { struckOutGame with EndCondition := 1 } (by decide)
  revert h1
  decide

/-- C5, amended: `CheckEnd` never writes 0 to `EndCondition`.  When it returns `false`
the field keeps its previous value, and when it returns `true` the value it has written
is 1 or 2.  So in every game state whose `EndCondition` is already non-zero the field is
still non-zero after `CheckEnd`, and equal to its previous value whenever `CheckEnd`
returns `false`. -/
theorem checkEnd_endCondition_written {Action : Type} (variants : Int → Variant)
    (g : Game Action) :
    ((CheckEnd variants g).1 = false →
        (CheckEnd variants g).2.EndCondition = g.EndCondition) ∧
      ((CheckEnd variants g).1 = true →
        (CheckEnd variants g).2.EndCondition = 1 ∨
          (CheckEnd variants g).2.EndCondition = 2) ∧
      ((CheckEnd variants g).2.EndCondition ≠ g.EndCondition →
        (CheckEnd variants g).2.EndCondition ≠ 0) ∧
      (g.EndCondition ≠ 0 → (CheckEnd variants g).2.EndCondition ≠ 0) := by
  rcases checkEnd_cases variants g with ⟨h3, h⟩ | ⟨h3, h⟩ | h
  · rw [h]; simp
  · rw [h]; simp
  · rw [h]; simp

theorem wrapInt64_of_inRange (x : Int) (hlo : MinInt64 ≤ x) (hhi : x ≤ MaxInt64) :
    wrapInt64 x = x := by
  unfold wrapInt64
  unfold MinInt64 at hlo
  unfold MaxInt64 at hhi
  omega

/-- C6, as stated, fails: with the height `MaxInt64` on stack 0 the needed rank
`stackLen + 1` wraps to `MinInt64`, a live card of suit 0 and that rank is found, and
`CheckEnd` returns `false` and writes nothing, although no deck card has the rank
`Stacks[s] + 1` of any suit `s` (rule 4 holds). -/
theorem checkEnd_wraps_needed_rank :
    ruleNothingPlayable sampleVariants overflowGame ∧
      (CheckEnd sampleVariants overflowGame).1 = false ∧
      (CheckEnd sampleVariants overflowGame).2 = overflowGame ∧
      ¬ ((CheckEnd sampleVariants overflowGame).1 = true ↔
        ruleStrikes overflowGame ∨ ruleFinalRound overflowGame ∨ ruleMaxScore overflowGame ∨
          ruleNothingPlayable sampleVariants overflowGame) := by
  have h4 : ruleNothingPlayable sampleVariants overflowGame := by
    refine ⟨by decide, ?_⟩
    decide
  have hret : (CheckEnd sampleVariants overflowGame).1 = false := by decide
  refine ⟨h4, hret, by decide, ?_⟩
  intro hiff
  have htrue := hiff.2 (Or.inr (Or.inr (Or.inr h4)))
  rw [hret] at htrue
  exact absurd htrue (by decide)

/-- C6, amended: for every game state whose stack heights are `int` values below the
largest one, `CheckEnd` returns `true` exactly when one of the four rules holds; when it
returns `true` the game after the call is the game before with `EndCondition` set to 2 if
rule 1 holds and to 1 otherwise, and when it returns `false` the game is unchanged. -/
theorem checkEnd_four_rules {Action : Type} (variants : Int → Variant) (g : Game Action)
    (hbound : ∀ h ∈ g.Stacks, MinInt64 ≤ h ∧ h < MaxInt64) :
    ((CheckEnd variants g).1 = true ↔
        ruleStrikes g ∨ ruleFinalRound g ∨ ruleMaxScore g ∨ ruleNothingPlayable variants g) ∧
      ((CheckEnd variants g).1 = true →
        (CheckEnd variants g).2 = { g with EndCondition := if ruleStrikes g then 2 else 1 }) ∧
      ((CheckEnd variants g).1 = false → (CheckEnd variants g).2 = g) := by
  have hwrap : ∀ s : Fin g.Stacks.length,
      wrapInt64 (g.Stacks.get s + 1) = g.Stacks.get s + 1 := by
    intro s
    obtain ⟨hlo, hhi⟩ := hbound (g.Stacks.get s) (List.get_mem _ _ _)
    refine wrapInt64_of_inRange _ ?_ ?_
    · unfold MinInt64 at hlo ⊢
      omega
    · unfold MaxInt64 at hhi ⊢
      omega
  have hneed : neededCardLeft g.Deck 0 g.Stacks = true ↔
      ∃ s : Fin g.Stacks.length, survives g.Deck (s.val : Int) (g.Stacks.get s + 1) := by
    have h0 := neededCardLeft_iff g.Deck g.Stacks 0
    simp only [hwrap] at h0
    simpa using h0
  refine ⟨?_, ?_, ?_⟩
  · unfold CheckEnd ruleStrikes ruleFinalRound ruleMaxScore ruleNothingPlayable
    rw [← allDoneFinalTurn_iff]
    by_cases h1 : g.Strikes = 3
    · simp [h1]
    by_cases h2 : g.ActivePlayer = g.EndPlayer ∧ allDoneFinalTurn g.Players = true
    · simp [h1, h2]
    by_cases h3 : g.Score = g.MaxScore
    · simp [h1, h2, h3]
    by_cases h4 : isUpOrDown (variants g.Options.Variant).Name = true
    · rw [if_neg h1, if_neg h2, if_neg h3, if_pos h4]
      simp [h1, h2, h3, h4]
    by_cases h5 : neededCardLeft g.Deck 0 g.Stacks = true
    · rw [if_neg h1, if_neg h2, if_neg h3, if_neg h4, if_pos h5]
      have h5b := hneed.1 h5
      simp only [Bool.false_eq_true, false_iff, h1, h2, h3, false_or, not_and]
      intro _ hall
      obtain ⟨s, hs⟩ := h5b
      exact hall s hs
    · rw [if_neg h1, if_neg h2, if_neg h3, if_neg h4, if_neg h5]
      simp only [true_iff]
      refine Or.inr (Or.inr (Or.inr ⟨by simpa using h4, ?_⟩))
      intro s hs
      exact h5 (hneed.2 ⟨s, hs⟩)
  · rcases checkEnd_cases variants g with ⟨h3, h⟩ | ⟨h3, h⟩ | h
    · rw [h]; simp [ruleStrikes, h3]
    · rw [h]; simp [ruleStrikes, h3]
    · rw [h]; simp
  · rcases checkEnd_cases variants g with ⟨h3, h⟩ | ⟨h3, h⟩ | h <;> rw [h] <;> simp

/-- Witness of C6 (amended): the sample game, with the heights 1 and 0, goes on (no rule
holds), and the struck-out game ends with the code 2. -/
theorem checkEnd_four_rules_witness :
    (∀ h ∈ sampleGame.Stacks, MinInt64 ≤ h ∧ h < MaxInt64) ∧
      (CheckEnd sampleVariants sampleGame).1 = false ∧
      (CheckEnd sampleVariants sampleGame).2 = sampleGame ∧
      (CheckEnd sampleVariants struckOutGame).2 = { struckOutGame with EndCondition := 2 } := by
  have hplay := checkEnd_four_rules sampleVariants sampleGame (by decide)
  have hend := checkEnd_four_rules sampleVariants struckOutGame (by decide)
  refine ⟨by decide, by decide, hplay.2.2 (by decide), ?_⟩
  rw [hend.2.1 (by decide)]
  decide

theorem suitContribution_eq (deck : List Card) (s : Int) (m : Nat) (hm : m ≤ 5)
    (hlow : ∀ r ∈ Finset.Icc 1 m, survives deck s (r : Int))
    (hstop : m < 5 → ¬ survives deck s ((m + 1 : Nat) : Int)) :
    suitContribution deck s = m := by
  unfold suitContribution
  rw [Nat.findGreatest_eq_iff]
  refine ⟨hm, fun _ => hlow, fun n hmn hn5 hP => ?_⟩
  exact hstop (by omega) (hP (m + 1) (Finset.mem_Icc.2 ⟨by omega, by omega⟩))

theorem walkRanks_five (deck : List Card) (s : Int) (score : Int) :
    walkRanks deck s [1, 2, 3, 4, 5] score = score + (suitContribution deck s : Int) := by
  have key : ∀ m : Nat, m ≤ 5 →
      (∀ r ∈ Finset.Icc 1 m, cardAlive deck s (r : Int) = true) →
      (m < 5 → ¬ cardAlive deck s ((m + 1 : Nat) : Int) = true) →
      suitContribution deck s = m := by
    intro m hm hlow hstop
    refine suitContribution_eq deck s m hm (fun r hr => (cardAlive_iff _ _ _).1 (hlow r hr)) ?_
    intro h5 hs
    exact hstop h5 ((cardAlive_iff _ _ _).2 hs)
  by_cases a1 : cardAlive deck s 1 = true
  swap
  · rw [key 0 (by omega) (by simp) (fun _ => by simpa using a1)]
    simp [walkRanks, a1]
  by_cases a2 : cardAlive deck s 2 = true
  swap
  · rw [key 1 (by omega) (by intro r hr; simp at hr; subst hr; simpa using a1)
      (fun _ => by simpa using a2)]
    simp [walkRanks, a1, a2]
  by_cases a3 : cardAlive deck s 3 = true
  swap
  · rw [key 2 (by omega)
      (by
        intro r hr
        rw [Finset.mem_Icc] at hr
        obtain ⟨h1, h2⟩ := hr
        interval_cases r
        · simpa using a1
        · simpa using a2)
      (fun _ => by simpa using a3)]
    simp [walkRanks, a1, a2, a3]
    omega
  by_cases a4 : cardAlive deck s 4 = true
  swap
  · rw [key 3 (by omega)
      (by
        intro r hr
        rw [Finset.mem_Icc] at hr
        obtain ⟨h1, h2⟩ := hr
        interval_cases r
        · simpa using a1
        · simpa using a2
        · simpa using a3)
      (fun _ => by simpa using a4)]
    simp [walkRanks, a1, a2, a3, a4]
    omega
  by_cases a5 : cardAlive deck s 5 = true
  swap
  · rw [key 4 (by omega)
      (by
        intro r hr
        rw [Finset.mem_Icc] at hr
        obtain ⟨h1, h2⟩ := hr
        interval_cases r
        · simpa using a1
        · simpa using a2
        · simpa using a3
        · simpa using a4)
      (fun _ => by simpa using a5)]
    simp [walkRanks, a1, a2, a3, a4, a5]
    omega
  rw [key 5 (by omega)
    (by
      intro r hr
      rw [Finset.mem_Icc] at hr
      obtain ⟨h1, h2⟩ := hr
      interval_cases r
      · simpa using a1
      · simpa using a2
      · simpa using a3
      · simpa using a4
      · simpa using a5)
    (fun h => absurd h (by omega))]
  simp [walkRanks, a1, a2, a3, a4, a5]
  omega

theorem walkSuits_eq (deck : List Card) (heights : List Int) (i : Nat) (score : Int) :
    walkSuits deck i heights score =
      score + (((List.range heights.length).map
        fun s => suitContribution deck ((i + s : Nat) : Int)).sum : Nat) := by
  induction heights generalizing i score with
  | nil => simp [walkSuits]
  | cons x rest ih =>
    rw [walkSuits, ih, walkRanks_five, List.length_cons, List.range_succ_eq_map]
    simp only [List.map_cons, List.map_map, List.sum_cons]
    have : (fun s => suitContribution deck ((i + 1 + s : Nat) : Int)) =
        ((fun s => suitContribution deck ((i + s : Nat) : Int)) ∘ Nat.succ) := by
      funext s
      simp only [Function.comp, Nat.succ_eq_add_one]
      congr 2
      omega
    rw [this]
    simp only [Nat.add_zero]
    push_cast
    ring

/-! ## `UpdateMaxScore`: theorem -/

/-- C2: for a game whose variant name does not start with "Up or Down",
`UpdateMaxScore` changes only `MaxScore`, and sets it to the sum, over the suit indices
of `Stacks`, of the largest `k` in `0..5` such that every rank in `1..k` of the suit has
a non-discarded copy in the deck; the previous `MaxScore` has no influence.  A suit whose
ranks 1 and 2 survive and whose rank-3 copies are all discarded adds exactly 2, and a
suit whose rank-1 copies are all discarded adds 0. -/
theorem updateMaxScore_spec {Action : Type} (variants : Int → Variant) (g : Game Action)
    (h : isUpOrDown (variants g.Options.Variant).Name = false) :
    UpdateMaxScore variants g = { g with MaxScore := (specMaxScore g.Deck g.Stacks : Int) } ∧
      (∀ m : Int, (UpdateMaxScore variants { g with MaxScore := m }).MaxScore =
        (UpdateMaxScore variants g).MaxScore) ∧
      (∀ s score : Int, survives g.Deck s 1 → survives g.Deck s 2 → ¬ survives g.Deck s 3 →
        walkRanks g.Deck s [1, 2, 3, 4, 5] score = score + 2 ∧
          suitContribution g.Deck s = 2) ∧
      (∀ s score : Int, ¬ survives g.Deck s 1 →
        walkRanks g.Deck s [1, 2, 3, 4, 5] score = score ∧ suitContribution g.Deck s = 0) := by
  have hsum : walkSuits g.Deck 0 g.Stacks 0 = (specMaxScore g.Deck g.Stacks : Int) := by
    rw [walkSuits_eq]
    simp [specMaxScore]
  refine ⟨?_, ?_, ?_, ?_⟩
  · unfold UpdateMaxScore
    rw [if_neg (by simp [h]), hsum]
  · intro m
    unfold UpdateMaxScore
    simp [h]
  · intro s score h1 h2 h3
    have hc : suitContribution g.Deck s = 2 := by
      refine suitContribution_eq g.Deck s 2 (by omega) ?_ (fun _ => by simpa using h3)
      intro r hr
      rw [Finset.mem_Icc] at hr
      obtain ⟨hr1, hr2⟩ := hr
      interval_cases r
      · simpa using h1
      · simpa using h2
    rw [walkRanks_five, hc]
    exact ⟨rfl, rfl⟩
  · intro s score h1
    have hc : suitContribution g.Deck s = 0 :=
      suitContribution_eq g.Deck s 0 (by omega) (by simp) (fun _ => by simpa using h1)
    rw [walkRanks_five, hc]
    exact ⟨by simp, rfl⟩

/-- Witness of C2: the sample game, whose suit 0 has ranks 1 and 2 alive and rank 3
discarded and whose suit 1 has rank 1 discarded, gets `MaxScore = 2` from a stale 10. -/
theorem updateMaxScore_spec_witness :
    isUpOrDown (sampleVariants sampleGame.Options.Variant).Name = false ∧
      sampleGame.MaxScore = 10 ∧
      (UpdateMaxScore sampleVariants sampleGame).MaxScore = 2 ∧
      UpdateMaxScore sampleVariants sampleGame =
        { sampleGame with MaxScore := (specMaxScore sampleGame.Deck sampleGame.Stacks : Int) } :=
  ⟨by decide, by decide, by decide,
    (updateMaxScore_spec sampleVariants sampleGame (by decide)).1⟩

/-! ## `CheckTimer`: theorem -/

/-- C3: a timer wake for the captured turn `turn` and the player `player` behind `p`.
When the game has a terminal `EndCondition` (> 0) or its `Turn` differs from `turn`, the
wake changes nothing: the game with all its players, the player behind `p` and its
`Time` are as before and no call is made.  When neither guard trips, the only write is
`p.Time = 0`, the session's "currentGame" is set to the ID of the game, and exactly one
move, of type 4, is handed to `commandAction` for the session of `p`. -/
theorem checkTimer_wake {Action : Type} (turn : Int) (g : Game Action) (p : PlayerPtr)
    (player : Player) (hp : p.get g = some player) :
    ((g.EndCondition > 0 ∨ g.Turn ≠ turn) →
        CheckTimer turn g p = some ⟨g, p, []⟩) ∧
      ((¬ g.EndCondition > 0 ∧ g.Turn = turn) →
        ∃ w, CheckTimer turn g p = some w ∧
          w.p.get w.g = some { player with Time := 0 } ∧
          w.g = (p.setTime g 0).1 ∧
          { w.g with Players := g.Players } = g ∧
          w.events =
            [Event.set player.Session "currentGame" (SetValue.int g.ID),
             Event.commandAction player.Session ⟨4⟩] ∧
          (w.events.filter fun e =>
              match e with
              | Event.commandAction _ _ => true
              | _ => false) = [Event.commandAction player.Session ⟨4⟩]) := by
  constructor
  · intro h
    unfold CheckTimer
    rw [hp]
    by_cases he : g.EndCondition > 0
    · simp [he]
    · have ht : turn ≠ g.Turn := fun e => (h.resolve_left he) e.symm
      simp [he, ht]
  · rintro ⟨he, ht⟩
    unfold CheckTimer
    rw [hp]
    simp only [he, if_false, ht, ne_eq, not_true_eq_false]
    refine ⟨_, rfl, ?_, rfl, ?_, rfl, ?_⟩
    · cases p with
      | seat i =>
        simp only [PlayerPtr.get] at hp
        have hi : i < g.Players.length := by
          by_contra hcon
          rw [List.getElem?_eq_none (by omega)] at hp
          exact absurd hp (by simp)
        simp [PlayerPtr.setTime, PlayerPtr.get, hp, hi]
      | free q =>
        simp only [PlayerPtr.get, Option.some.injEq] at hp
        simp [PlayerPtr.setTime, PlayerPtr.get, hp]
    · cases p with
      | seat i =>
        simp only [PlayerPtr.get] at hp
        simp [PlayerPtr.setTime, hp]
      | free q => simp [PlayerPtr.setTime]
    · simp

/-- Witness of C3: on the sample game at turn 5, a timer captured at turn 4 for the
player at seat 1 does nothing, and a timer captured at turn 5 zeroes the time of that
player and hands one move of type 4 to `commandAction`. -/
theorem checkTimer_wake_witness :
    (PlayerPtr.seat 1).get sampleGame = some bob ∧
      CheckTimer 4 sampleGame (PlayerPtr.seat 1) = some ⟨sampleGame, PlayerPtr.seat 1, []⟩ ∧
      ∃ w, CheckTimer 5 sampleGame (PlayerPtr.seat 1) = some w ∧
        w.p.get w.g = some { bob with Time := 0 } ∧
        w.events =
          [Event.set bob.Session "currentGame" (SetValue.int sampleGame.ID),
           Event.commandAction bob.Session ⟨4⟩] := by
  refine ⟨by decide, ?_, ?_⟩
  · exact (checkTimer_wake 4 sampleGame (PlayerPtr.seat 1) bob (by decide)).1
      (Or.inr (by decide))
  · obtain ⟨w, hw, hplayer, _, _, hevents, _⟩ :=
      (checkTimer_wake 5 sampleGame (PlayerPtr.seat 1) bob (by decide)).2
        ⟨by decide, by decide⟩
    exact ⟨w, hw, hplayer, hevents⟩

/-! ## `CheckIdle`: theorems -/

/-- C4, as stated, fails: the monitor armed at `T = 0` wakes at
`W = T + idleGameTimeout + 1 s` on a registered game whose `DatetimeLastAction` was
refreshed at `T' = 1 ns > T`; the threshold has elapsed since `T'`, so the spectator is
removed and the game is force-ended. -/
theorem checkIdle_evicts_after_early_refresh :
    (0 : Int) < 1 ∧
      refreshedGame.DatetimeLastAction = 1 ∧
      (sampleGames refreshedGame.ID).isSome = true ∧
      sampleIdleTimeout + Second ≥ 0 + sampleIdleTimeout + Second ∧
      ((CheckIdle sampleGames sampleIdleTimeout sampleIdleLimitReached
          (sampleIdleTimeout + Second) refreshedGame).run.events.filter Event.isEviction) =
        [Event.commandGameUnattend (some carolSession),
         Event.commandAction (some aliceSession) ⟨sampleIdleLimitReached⟩] ∧
      (CheckIdle sampleGames sampleIdleTimeout sampleIdleLimitReached
          (sampleIdleTimeout + Second) refreshedGame).g.Spectators = [] := by
  decide

/-- C4, amended: for a schedule time `T`, a later action time `T' > T` that refreshed
`DatetimeLastAction` before the wake, and a wake time `W ≥ T + idleGameTimeout + 1 s`
at which less than `idleGameTimeout` has elapsed since `T'`, the wake of `CheckIdle` on
a registered game is a no-op: no call is made (no boot message, no spectator removal,
no forced game end, no forced owner leave) and the game is unchanged. -/
theorem checkIdle_refreshed_noop {Action : Type} (games : Int → Option (Game Action))
    (idleGameTimeout actionTypeIdleLimitReached T T' W : Int) (g : Game Action)
    (_hreg : (games g.ID).isSome = true) (hlast : g.DatetimeLastAction = T')
    (_hlater : T < T') (hbefore : T' ≤ W) (_hwake : W ≥ T + idleGameTimeout + Second)
    (hfresh : W - T' < idleGameTimeout) :
    CheckIdle games idleGameTimeout actionTypeIdleLimitReached W g = ⟨g, Run.ok []⟩ ∧
      ((CheckIdle games idleGameTimeout actionTypeIdleLimitReached W g).run.events.filter
        Event.isEviction) = [] := by
  have hsince : Since W g.DatetimeLastAction < idleGameTimeout := by
    rw [hlast]
    unfold Since minDuration maxDuration
    have h0 : 0 ≤ W - T' := by omega
    omega
  have hrun : CheckIdle games idleGameTimeout actionTypeIdleLimitReached W g =
      ⟨g, Run.ok []⟩ := by
    unfold CheckIdle
    cases hg : games g.ID with
    | none => rfl
    | some g0 => simp [hsince]
  exact ⟨hrun, by rw [hrun]; rfl⟩

/-- Witness of C4 (amended): armed at 0, refreshed at 2 s, woken at
`idleGameTimeout + 1 s`. -/
theorem checkIdle_refreshed_noop_witness :
    CheckIdle sampleGames sampleIdleTimeout sampleIdleLimitReached
        (sampleIdleTimeout + Second) (CheckIdleArm (2 * Second) refreshedGame) =
        ⟨CheckIdleArm (2 * Second) refreshedGame, Run.ok []⟩ ∧
      ((CheckIdle sampleGames sampleIdleTimeout sampleIdleLimitReached
          (sampleIdleTimeout + Second)
          (CheckIdleArm (2 * Second) refreshedGame)).run.events.filter
        Event.isEviction) = [] :=
  checkIdle_refreshed_noop sampleGames sampleIdleTimeout sampleIdleLimitReached 0
    (2 * Second) (sampleIdleTimeout + Second) (CheckIdleArm (2 * Second) refreshedGame)
    (by decide) (by decide) (by decide) (by decide) (by decide) (by decide)

/-! ## `NotifyAction`: theorems -/

/-- C9, as stated, fails: on a running game with an empty action log the read
`g.Actions[len(g.Actions)-1]` is out of range. -/
theorem notifyAction_panics_on_empty_log :
    emptyLogGame.Running = true ∧ emptyLogGame.Actions = [] ∧
      (NotifyAction emptyLogGame).fault = true := by
  decide

/-- C9, amended: on every game that is not running or whose action log is not empty,
`NotifyAction` completes without an out-of-range access.  On a game that is not running
it is skipped and makes no call; on a running game it hands the last action of the log
to every present player and then to every spectator. -/
theorem notifyAction_completes {Action : Type} (g : Game Action)
    (h : g.Running = false ∨ g.Actions ≠ []) :
    (NotifyAction g).fault = false ∧
      (g.Running = false → NotifyAction g = Run.ok []) ∧
      (g.Running = true → ∃ a, g.Actions.getLast? = some a ∧
        (NotifyAction g).events =
          ((g.Players.filter fun p => p.Present).map
              fun p => Event.notifyGameAction p.Session a (some p))
            ++ g.Spectators.map fun s => Event.notifyGameAction (some s) a none) := by
  by_cases hr : g.Running = false
  · simp [NotifyAction, hr, Run.ok]
  · have hne : g.Actions ≠ [] := h.resolve_left hr
    have hrun : g.Running = true := by simpa using hr
    obtain ⟨a, ha⟩ : ∃ a, g.Actions.getLast? = some a := by
      cases hl : g.Actions.getLast? with
      | none => exact absurd (List.getLast?_eq_none_iff.1 hl) hne
      | some a => exact ⟨a, rfl⟩
    have hidx : index? g.Actions ((g.Actions.length : Int) - 1) = some a := by
      have hpos : 0 < g.Actions.length := List.length_pos.2 hne
      unfold index?
      rw [if_neg (by omega)]
      have : ((g.Actions.length : Int) - 1).toNat = g.Actions.length - 1 := by omega
      rw [this, ← List.getLast?_eq_getElem?]
      exact ha
    simp [NotifyAction, hrun, hidx, ha, Run.ok]

/-- Witness of C9 (amended): the running sample game, whose log ends with action 12. -/
theorem notifyAction_completes_witness :
    (NotifyAction sampleGame).fault = false ∧
      (sampleGame.Running = false → NotifyAction sampleGame = Run.ok []) ∧
      (sampleGame.Running = true → ∃ a, sampleGame.Actions.getLast? = some a ∧
        (NotifyAction sampleGame).events =
          ((sampleGame.Players.filter fun p => p.Present).map
              fun p => Event.notifyGameAction p.Session a (some p))
            ++ sampleGame.Spectators.map fun s => Event.notifyGameAction (some s) a none) :=
  notifyAction_completes sampleGame (Or.inr (by decide))

/-! ## Lemmas on `commandReady` -/

theorem notifyLists_append {Action : Type} (a b : List (Event Action)) :
    notifyLists (a ++ b) = notifyLists a ++ notifyLists b := by
  induction a with
  | nil => rfl
  | cons e rest ih =>
    cases e with
    | emit s name data =>
      cases data with
      | actions list =>
        by_cases hn : name = "notifyList" <;> simp [notifyLists, hn, ih]
      | _ => simp [notifyLists, ih]
    | _ => simp [notifyLists, ih]

theorem playerIndexFrom_spec (ps : List Player) (id : Int) (k : Nat) :
    (ps.find? (fun p => p.ID = id) = none ∧ playerIndexFrom ps id k = -1) ∨
      ∃ n p, ps.find? (fun p => p.ID = id) = some p ∧
        playerIndexFrom ps id k = ((k + n : Nat) : Int) ∧ ps[n]? = some p := by
  induction ps generalizing k with
  | nil => exact Or.inl ⟨rfl, rfl⟩
  | cons q qs ih =>
    by_cases hq : q.ID = id
    · exact Or.inr ⟨0, q, by simp [hq], by simp [playerIndexFrom, hq], by simp⟩
    · rcases ih (k + 1) with ⟨hnone, hidx⟩ | ⟨n, p, hfind, hidx, hget⟩
      · exact Or.inl ⟨by simp [hq, hnone], by simp [playerIndexFrom, hq, hidx]⟩
      · refine Or.inr ⟨n + 1, p, by simp [hq, hfind], ?_, by simpa using hget⟩
        rw [playerIndexFrom, if_neg hq, hidx]
        congr 1
        omega

theorem index?_natCast {α : Type} (xs : List α) (n : Nat) :
    index? xs (n : Int) = xs[n]? := by
  unfold index?
  rw [if_neg (by omega)]
  simp

theorem scrubActions_registered {Action : Type} (env : Env Action) (g : Game Action)
    (id : Int) (actions : List Action) :
    scrubActions env (some g) (GetPlayerIndex (some g) id) actions =
      some (viewOf env g id actions) := by
  have hget : GetPlayerIndex (some g) id = playerIndexFrom g.Players id 0 := rfl
  rw [hget]
  unfold scrubActions viewOf seatedPlayer
  rcases playerIndexFrom_spec g.Players id 0 with ⟨hnone, hidx⟩ | ⟨n, p, hfind, hidx, hget⟩
  · rw [hidx, hnone]
    simp
  · have hpos : ((0 + n : Nat) : Int) > -1 := by omega
    rw [hidx, hfind, if_pos hpos]
    simp [index?_natCast, hget]

theorem liveNotes_index (players : List Player) (id : Int) :
    playerIndexFrom players id 0 = -1 ∨
      ∃ note, index? (liveNotes players) (playerIndexFrom players id 0) = some note := by
  rcases playerIndexFrom_spec players id 0 with ⟨_, hidx⟩ | ⟨n, p, _, hidx, hget⟩
  · exact Or.inl hidx
  · refine Or.inr ⟨{ ID := p.ID, Name := p.Name, Notes := p.Notes }, ?_⟩
    rw [hidx, index?_natCast]
    simp [liveNotes, hget]

theorem andThen_ok_events {Action : Type} (es : List (Event Action)) (k : Run Action) :
    ((Run.ok es).andThen k).events = es ++ k.events := by
  simp [Run.andThen, Run.ok]

theorem andThen_ok_fault {Action : Type} (es : List (Event Action)) (k : Run Action) :
    ((Run.ok es).andThen k).fault = k.fault := by
  simp [Run.andThen, Run.ok]

theorem andThen_silent {Action : Type} (r k : Run Action)
    (hr : notifyLists r.events = []) (hk : notifyLists k.events = []) :
    notifyLists (r.andThen k).events = [] := by
  unfold Run.andThen
  split_ifs
  · exact hr
  · simp [notifyLists_append, hr, hk]

theorem sendReady_notifyLists {Action : Type} (s : Session) (g : Option (Game Action))
    (i : Int) (notes : List PlayerNote) (scrubbedActions : List Action) :
    notifyLists (sendReady s g i notes scrubbedActions).events = [scrubbedActions] := by
  unfold sendReady
  rw [andThen_ok_events, notifyLists_append]
  have htail : ∀ k : Run Action, notifyLists k.events = [] →
      notifyLists [Event.emit (some s) "notifyList" (Payload.actions scrubbedActions)] ++
        notifyLists k.events = [scrubbedActions] := by
    intro k hk
    rw [hk]
    simp [notifyLists]
  apply htail
  refine andThen_silent _ _ ?_ (andThen_silent _ _ ?_ (andThen_silent _ _ ?_
    (andThen_silent _ _ ?_ ?_)))
  · split_ifs
    · cases g with
      | none => rfl
      | some game =>
        simp only []
        split_ifs <;> rfl
    · rfl
  · rfl
  · split_ifs
    · rfl
    · exact andThen_silent _ _ rfl rfl
    · refine andThen_silent _ _ rfl ?_
      cases index? notes i <;> rfl
  · split_ifs <;> rfl
  · split_ifs
    · cases g <;> rfl
    · rfl

theorem sendReady_live_fault {Action : Type} (s : Session) (game : Game Action)
    (i : Int) (notes : List PlayerNote) (scrubbedActions : List Action)
    (hs1 : s.Status ≠ "Replay") (hs2 : s.Status ≠ "Shared Replay")
    (hn : i = -1 ∨ ∃ note, index? notes i = some note) :
    (sendReady s (some game) i notes scrubbedActions).fault = false := by
  have hrep : isReplayStatus s.Status = false := by simp [isReplayStatus, hs1, hs2]
  unfold sendReady
  rw [andThen_ok_fault]
  simp only [hs1, hs2, hrep, ne_eq, not_false_eq_true, and_self, if_true, if_false,
    Bool.false_eq_true]
  by_cases hi : i = -1
  · subst hi
    by_cases ha : game.ActivePlayer = -1 <;> simp [ha, Run.andThen, Run.ok]
  · obtain ⟨note, hnote⟩ := hn.resolve_left hi
    by_cases ha : game.ActivePlayer = i <;> simp [ha, hi, hnote, Run.andThen, Run.ok]

theorem sendReady_replay_fault {Action : Type} (s : Session) (g : Option (Game Action))
    (i : Int) (notes : List PlayerNote) (scrubbedActions : List Action)
    (hs : isReplayStatus s.Status = true) (hg : s.Status = "Shared Replay" → g.isSome = true) :
    (sendReady s g i notes scrubbedActions).fault = false := by
  unfold sendReady
  rw [andThen_ok_fault]
  have hor : s.Status = "Replay" ∨ s.Status = "Shared Replay" := by
    simpa [isReplayStatus] using hs
  rcases hor with h | h
  · simp [h, hs, isReplayStatus, Run.andThen, Run.ok]
  · cases g with
    | none => exact absurd (hg h) (by simp)
    | some game => simp [h, hs, isReplayStatus, Run.andThen, Run.ok]

theorem validateReady_live {Action : Type} (env : Env Action) (s : Session)
    (g : Game Action) (hs : s.Status ≠ "Replay") (hg : env.games s.CurrentGame = some g)
    (hr : g.Running = true) : validateReady env s = Except.ok (some g) := by
  unfold validateReady
  rw [if_pos hs, hg]
  simp [hr]

theorem validateReady_replay {Action : Type} (env : Env Action) (s : Session)
    (hs : s.Status = "Replay") : validateReady env s = Except.ok none := by
  unfold validateReady
  rw [if_neg (by simp [hs])]

theorem readyRun_live {Action : Type} (env : Env Action) (s : Session) (g : Game Action)
    (hs1 : s.Status ≠ "Replay") (hs2 : s.Status ≠ "Shared Replay")
    (hg : env.games s.CurrentGame = some g) (hr : g.Running = true) :
    readyRun env s =
      sendReady s (some g) (GetPlayerIndex (some g) s.UserID) (liveNotes g.Players)
        (viewOf env g s.UserID g.Actions) := by
  have hrep : isReplayStatus s.Status = false := by simp [isReplayStatus, hs1, hs2]
  unfold readyRun
  rw [validateReady_live env s g hs1 hg hr]
  simp only [hrep, Bool.false_eq_true, if_false]
  unfold finishReady
  rw [scrubActions_registered]

theorem seatedPlayer_seat {Action : Type} (g : Game Action) (id : Int) (p : Player)
    (h : seatedPlayer g id = some p) :
    index? g.Players (GetPlayerIndex (some g) id) = some p ∧ p.ID = id := by
  have hget : GetPlayerIndex (some g) id = playerIndexFrom g.Players id 0 := rfl
  unfold seatedPlayer at h
  rcases playerIndexFrom_spec g.Players id 0 with ⟨hnone, _⟩ | ⟨n, q, hfind, hidx, hq⟩
  · rw [hnone] at h
    exact absurd h (by simp)
  · rw [hfind] at h
    obtain rfl : q = p := by simpa using h
    refine ⟨by rw [hget, hidx, index?_natCast]; simpa using hq, ?_⟩
    simpa using List.find?_some hfind

theorem seatedPlayer_none {Action : Type} (g : Game Action) (id : Int) :
    seatedPlayer g id = none ↔ GetPlayerIndex (some g) id = -1 := by
  have hget : GetPlayerIndex (some g) id = playerIndexFrom g.Players id 0 := rfl
  unfold seatedPlayer
  rcases playerIndexFrom_spec g.Players id 0 with ⟨hnone, hidx⟩ | ⟨n, q, hfind, hidx, _⟩
  · simp [hget, hnone, hidx]
  · rw [hget, hidx, hfind]
    constructor
    · intro h
      exact absurd h (by simp)
    · intro h
      omega

/-! ## `commandReady`: theorems -/

/-- C7: for a session whose status is neither "Replay" nor "Shared Replay" and whose
current game is registered and running, `commandReady` completes and emits exactly one
"notifyList" batch.  The batch has as many entries as `g.Actions`, in log order: entry
`j` is `g.Actions[j]` scrubbed for the viewer when the viewer is a seated player (the
player at the seat `GetPlayerIndex` returns), and `g.Actions[j]` itself when the viewer
has no seat.  The registry, and with it the action log of the game, is as before. -/
theorem commandReady_live_batch {Action : Type} (env : Env Action) (s : Session)
    (g : Game Action) (hs1 : s.Status ≠ "Replay") (hs2 : s.Status ≠ "Shared Replay")
    (hg : env.games s.CurrentGame = some g) (hr : g.Running = true) :
    (commandReady env s).run.fault = false ∧
      (∃ batch, notifyLists (commandReady env s).run.events = [batch] ∧
        batch.length = g.Actions.length ∧
        (∀ p, seatedPlayer g s.UserID = some p →
          index? g.Players (GetPlayerIndex (some g) s.UserID) = some p ∧ p.ID = s.UserID ∧
            batch = g.Actions.map (env.Scrub g p) ∧
            ∀ j : Nat, batch[j]? = (g.Actions[j]?).map (env.Scrub g p)) ∧
        (seatedPlayer g s.UserID = none →
          GetPlayerIndex (some g) s.UserID = -1 ∧ batch = g.Actions)) ∧
      (commandReady env s).games = env.games ∧
      (commandReady env s).games s.CurrentGame = some g := by
  have hrun : (commandReady env s).run =
      sendReady s (some g) (GetPlayerIndex (some g) s.UserID) (liveNotes g.Players)
        (viewOf env g s.UserID g.Actions) := readyRun_live env s g hs1 hs2 hg hr
  refine ⟨?_, ⟨viewOf env g s.UserID g.Actions, ?_, ?_, ?_, ?_⟩, rfl, hg⟩
  · rw [hrun]
    exact sendReady_live_fault s g _ _ _ hs1 hs2 (liveNotes_index g.Players s.UserID)
  · rw [hrun, sendReady_notifyLists]
  · unfold viewOf
    cases seatedPlayer g s.UserID <;> simp
  · intro p hp
    obtain ⟨hseat, hid⟩ := seatedPlayer_seat g s.UserID p hp
    refine ⟨hseat, hid, by simp [viewOf, hp], ?_⟩
    intro j
    simp [viewOf, hp]
  · intro hnone
    exact ⟨(seatedPlayer_none g s.UserID).1 hnone, by simp [viewOf, hnone]⟩

/-- Witness of C7: the seated player bob and the spectator carol ask for the running
sample game, whose log is `[10, 11, 12]`. -/
theorem commandReady_live_batch_witness :
    notifyLists (commandReady sampleEnv bobSession).run.events = [[10, 11, 0]] ∧
      notifyLists (commandReady sampleEnv carolSession).run.events = [[10, 11, 12]] ∧
      (commandReady sampleEnv bobSession).run.fault = false ∧
      (commandReady sampleEnv carolSession).run.fault = false := by
  have hbob := commandReady_live_batch sampleEnv bobSession sampleGame
    (by decide) (by decide) (by decide) (by decide)
  have hcarol := commandReady_live_batch sampleEnv carolSession sampleGame
    (by decide) (by decide) (by decide) (by decide)
  refine ⟨?_, ?_, hbob.1, hcarol.1⟩
  · obtain ⟨batch, hlist, _, hseat, _⟩ := hbob.2.1
    rw [hlist, (hseat bob (by decide)).2.2.1]
    decide
  · obtain ⟨batch, hlist, _, _, hnone⟩ := hcarol.2.1
    rw [hlist, (hnone (by decide)).2]
    decide

/-- C8: for a session whose status is not "Replay", when its current game is not in the
registry, or is registered but not running, `commandReady` makes exactly one call, a
warning to the requesting session: no "notifyList", "advanced", notes, clock, spectator
or replay message is sent and neither the persisted action log nor the persisted notes
are read.  The registry of games is as before. -/
theorem commandReady_rejects {Action : Type} (env : Env Action) (s : Session)
    (hs : s.Status ≠ "Replay") :
    (env.games s.CurrentGame = none →
        (commandReady env s).run =
          Run.ok [Event.warning (some s)
            ("Game " ++ toString s.CurrentGame ++ " does not exist.")]) ∧
      (∀ g, env.games s.CurrentGame = some g → g.Running = false →
        (commandReady env s).run =
          Run.ok [Event.warning (some s)
            ("Game " ++ toString s.CurrentGame ++ " has not started yet.")]) ∧
      (commandReady env s).games = env.games := by
  refine ⟨?_, ?_, rfl⟩
  · intro hnone
    show readyRun env s = _
    unfold readyRun validateReady
    rw [if_pos hs, hnone]
  · intro g hg hr
    show readyRun env s = _
    unfold readyRun validateReady
    rw [if_pos hs, hg]
    simp [hr]

/-- Witness of C8: a session on the unregistered game 99 and a session on the unstarted
game 8. -/
theorem commandReady_rejects_witness :
    (commandReady sampleEnv straySession).run =
        Run.ok [Event.warning (some straySession) "Game 99 does not exist."] ∧
      (commandReady sampleEnv earlySession).run =
        Run.ok [Event.warning (some earlySession) "Game 8 has not started yet."] :=
  ⟨(commandReady_rejects sampleEnv straySession (by decide)).1 (by decide),
    (commandReady_rejects sampleEnv earlySession (by decide)).2.1 preGame (by decide)
      (by decide)⟩

/-- C10: the code at the failing input.  Bob, seated at index 1 of the registered
shared replay 9, asks for it with the status "Shared Replay", and the persisted log
decodes to `[10, 11, 12]`.  Whatever `Scrub` is, every entry of the batch he gets has
gone through `Scrub` for his seat (with the sample redaction the batch is `[10, 11, 0]`),
while the same user with the status "Replay" gets the decoded list untouched. -/
theorem commandReady_scrubs_shared_replay :
    isReplayStatus bobReplaySession.Status = true ∧
      GetPlayerIndex (some sharedReplayGame) bobReplaySession.UserID = 1 ∧
      index? sharedReplayGame.Players 1 = some bob ∧
      sampleEnv.dbGameActionsGetAll bobReplaySession.CurrentGame =
        Except.ok ["10", "11", "12"] ∧
      decodeActions sampleEnv.jsonUnmarshal ["10", "11", "12"] = Except.ok [10, 11, 12] ∧
      (∀ scrub : Game Nat → Player → Nat → Nat,
        notifyLists
            (commandReady { sampleEnv with Scrub := scrub } bobReplaySession).run.events =
          [[scrub sharedReplayGame bob 10, scrub sharedReplayGame bob 11,
            scrub sharedReplayGame bob 12]]) ∧
      notifyLists (commandReady sampleEnv bobReplaySession).run.events = [[10, 11, 0]] ∧
      (∀ scrub : Game Nat → Player → Nat → Nat,
        notifyLists
            (commandReady { sampleEnv with Scrub := scrub }
              { bobReplaySession with Status := "Replay" }).run.events =
          [[10, 11, 12]]) :=
  ⟨by decide, by decide, by decide, rfl, rfl, fun _ => rfl, by decide, fun _ => rfl⟩

theorem readyRun_replay_loaded {Action : Type} (env : Env Action) (s : Session)
    (g : Option (Game Action)) (actionStrings : List String) (actions : List Action)
    (hv : validateReady env s = Except.ok g) (hs : isReplayStatus s.Status = true)
    (hload : env.dbGameActionsGetAll s.CurrentGame = Except.ok actionStrings)
    (hdec : decodeActions env.jsonUnmarshal actionStrings = Except.ok actions)
    (view : List Action)
    (hview : scrubActions env g (GetPlayerIndex g s.UserID) actions = some view) :
    (∀ batch ∈ notifyLists (readyRun env s).events, batch = view) ∧
      (∀ notes, env.dbGamesGetNotes s.CurrentGame = Except.ok notes →
        (readyRun env s).fault =
            (sendReady s g (GetPlayerIndex g s.UserID) notes view).fault ∧
          notifyLists (readyRun env s).events = [view]) := by
  unfold readyRun
  rw [hv]
  simp only [hs, if_true, hload, hdec]
  cases hnotes : env.dbGamesGetNotes s.CurrentGame with
  | error err =>
    refine ⟨?_, ?_⟩
    · intro batch hb
      simp [notifyLists, Run.ok] at hb
    · intro notes h
      exact absurd h (by simp)
  | ok notes =>
    have hev : notifyLists ((Run.ok [Event.dbGameActionsGetAll s.CurrentGame,
        Event.dbGamesGetNotes s.CurrentGame]).andThen
          (finishReady env s g (GetPlayerIndex g s.UserID) actions notes)).events = [view] := by
      rw [andThen_ok_events, notifyLists_append]
      unfold finishReady
      rw [hview, sendReady_notifyLists]
      rfl
    refine ⟨?_, ?_⟩
    · intro batch hb
      simp only [] at hb
      rw [hev] at hb
      simpa using hb
    · intro notes2 h
      obtain rfl : notes = notes2 := by simpa using h
      refine ⟨?_, hev⟩
      simp only []
      rw [andThen_ok_fault]
      unfold finishReady
      rw [hview]

/-- Replay viewers without a seat: for a session whose persisted log loads and decodes
successfully, when the status is "Replay", or the status is "Shared Replay" and the
user ID matches no seated player of the registered, running game, every "notifyList"
batch `commandReady` emits equals the decoded list, in the same order and with `Scrub`
applied to no entry; when the persisted notes load as well, the call completes and emits
exactly one such batch. -/
theorem commandReady_replay_batch {Action : Type} (env : Env Action) (s : Session)
    (actionStrings : List String) (actions : List Action)
    (hs : isReplayStatus s.Status = true)
    (hload : env.dbGameActionsGetAll s.CurrentGame = Except.ok actionStrings)
    (hdec : decodeActions env.jsonUnmarshal actionStrings = Except.ok actions)
    (hseat : s.Status = "Replay" ∨
      ∃ g, env.games s.CurrentGame = some g ∧ g.Running = true ∧
        ∀ p ∈ g.Players, p.ID ≠ s.UserID) :
    (∀ batch ∈ notifyLists (commandReady env s).run.events, batch = actions) ∧
      (∀ notes, env.dbGamesGetNotes s.CurrentGame = Except.ok notes →
        (commandReady env s).run.fault = false ∧
          notifyLists (commandReady env s).run.events = [actions]) := by
  by_cases hst : s.Status = "Replay"
  · have hv := validateReady_replay env s hst
    have hview : scrubActions env none
        (GetPlayerIndex (none : Option (Game Action)) s.UserID) actions = some actions := by
      simp [scrubActions, GetPlayerIndex]
    obtain ⟨hall, hone⟩ :=
      readyRun_replay_loaded env s none actionStrings actions hv hs hload hdec actions hview
    refine ⟨hall, fun notes hnotes => ?_⟩
    obtain ⟨hf, hl⟩ := hone notes hnotes
    refine ⟨?_, hl⟩
    show (readyRun env s).fault = false
    rw [hf]
    exact sendReady_replay_fault s none _ _ _ hs (fun h => by rw [hst] at h; simp at h)
  · obtain ⟨g, hg, hr, hnoseat⟩ := hseat.resolve_left hst
    have hv := validateReady_live env s g hst hg hr
    have hnone : seatedPlayer g s.UserID = none := by
      unfold seatedPlayer
      rw [List.find?_eq_none]
      intro p hp
      simpa using hnoseat p hp
    have hview : scrubActions env (some g) (GetPlayerIndex (some g) s.UserID) actions =
        some actions := by
      rw [scrubActions_registered]
      simp [viewOf, hnone]
    obtain ⟨hall, hone⟩ :=
      readyRun_replay_loaded env s (some g) actionStrings actions hv hs hload hdec
        actions hview
    refine ⟨hall, fun notes hnotes => ?_⟩
    obtain ⟨hf, hl⟩ := hone notes hnotes
    refine ⟨?_, hl⟩
    show (readyRun env s).fault = false
    rw [hf]
    exact sendReady_replay_fault s (some g) _ _ _ hs (fun _ => rfl)

/-- Carol, who has no seat, asks for the shared replay 9 and gets the decoded log
`[10, 11, 12]` as it is. -/
theorem commandReady_replay_batch_witness :
    (∀ batch ∈ notifyLists (commandReady sampleEnv carolReplaySession).run.events,
        batch = [10, 11, 12]) ∧
      (∀ notes, sampleEnv.dbGamesGetNotes carolReplaySession.CurrentGame = Except.ok notes →
        (commandReady sampleEnv carolReplaySession).run.fault = false ∧
          notifyLists (commandReady sampleEnv carolReplaySession).run.events =
            [[10, 11, 12]]) :=
  commandReady_replay_batch sampleEnv carolReplaySession ["10", "11", "12"] [10, 11, 12]
    (by decide) rfl rfl (Or.inr ⟨sharedReplayGame, by decide, by decide, by decide⟩)

end Hanabi
